import Mathlib

/-!
# kvstore: the in-memory engine (`memstore`)

A shallow embedding of `memstore/memstore.go`.  The engine keeps a Go
`map[uint64][]byte` keyed by the 64-bit digest of the key, together with a
reusable `hash/maphash` context.  Every operation of the Go code mutates the
receiver in place; here each operation takes the store before the call and
returns the store after it next to the Go results.

The mutex `mu` is not part of the state: each operation below is one whole
critical section (`Lock` ... deferred `Unlock`), executed without interleaving.
-/

namespace memstore

/-! ## Go values -/

/-- One byte of a key or of a value. -/
abbrev Byte := UInt8

/-- Go `[]byte`: `none` is the nil slice, `some bs` is a non-nil slice holding `bs`
(so `some []` is the empty, non-nil slice). -/
abbrev ByteSlice := Option (List Byte)

/-- Go `len(b)`; the nil slice has length zero. -/
def len : ByteSlice → Nat
  | none => 0
  | some bs => bs.length

/-- The bytes of a slice in order; the nil slice has none. -/
def bytesOf : ByteSlice → List Byte
  | none => []
  | some bs => bs

/-- Go `error`: `none` is the nil error, `some msg` an error made by `fmt.Errorf(msg)`. -/
abbrev GoError := Option String

/-- Message of the error `Create` returns for a zero-length key. -/
def InvalidKey : String := "invalid key: cannot have zero-length"

/-- Message of the error `Create` returns when the digest is already in the table. -/
def AlreadyExists : String := "key already exists"

/-- Message of the error `Read`, `Update` and `Delete` return on a miss. -/
def NotFound : String := "key does not exist"

/-! ## The hashing context (`hash/maphash`) -/

/-- The state of a `maphash.Hash`: its seed and the bytes written since the last `Reset`.
The Go runtime picks the seed at random on first use and never changes it afterwards. -/
structure Hash where
  seed : Nat
  written : List Byte

/-- Go `(*maphash.Hash).Reset`: discards all bytes added, keeps the seed. -/
def Hash.Reset (h : Hash) : Hash :=
  { h with written := [] }

/-- Go `(*maphash.Hash).Write`: adds the bytes of `p` to the sequence hashed; never fails. -/
def Hash.Write (h : Hash) (p : ByteSlice) : Hash :=
  { h with written := h.written ++ bytesOf p }

/-- Go `(*maphash.Hash).Sum64`: a `uint64` that depends on the seed and on the bytes added
since the last `Reset`.  The digest function `H` of the standard library is a parameter. -/
def Hash.Sum64 (H : Nat → List Byte → Nat) (h : Hash) : Nat :=
  H h.seed h.written % 2 ^ 64

/-! ## The store -/

/-- Go `map[uint64][]byte`: a finite map from digests to values. -/
abbrev Table := Finmap (fun _ : Nat => ByteSlice)

/-- The fields `kv` and `hash` of the Go `Store`. -/
structure Store where
  kv : Table
  hash : Hash

/-- Go `New`: an empty table and a zero `maphash.Hash`; `seed` is the seed the runtime
gives that context. -/
def New (seed : Nat) : Store :=
  { kv := ∅, hash := { seed := seed, written := [] } }

/-- Go `(*Store).hashKey`: reset the context, write the key, take `Sum64`.
Returns the store with the context as the call leaves it, and the digest. -/
def hashKey (H : Nat → List Byte → Nat) (s : Store) (key : ByteSlice) : Store × Nat :=
  let h1 := s.hash.Reset
  let h2 := h1.Write key
  ({ s with hash := h2 }, h2.Sum64 H)

/-- Go `(*Store).Create`. -/
def Create (H : Nat → List Byte → Nat) (s : Store) (key value : ByteSlice) : Store × GoError :=
  if len key = 0 then
    (s, some InvalidKey)
  else
    let r := hashKey H s key
    let s1 := r.1
    let hash := r.2
    if (s1.kv.lookup hash).isSome then
      (s1, some AlreadyExists)
    else
      ({ s1 with kv := s1.kv.insert hash value }, none)

/-- Go `(*Store).Read`: the store after the call, the slice returned and the error. -/
def Read (H : Nat → List Byte → Nat) (s : Store) (key : ByteSlice) :
    Store × ByteSlice × GoError :=
  let r := hashKey H s key
  let s1 := r.1
  let hash := r.2
  match s1.kv.lookup hash with
  | none => (s1, none, some NotFound)
  | some v => (s1, v, none)

/-- Go `(*Store).Update`. -/
def Update (H : Nat → List Byte → Nat) (s : Store) (key value : ByteSlice) : Store × GoError :=
  let r := hashKey H s key
  let s1 := r.1
  let hash := r.2
  if ¬ (s1.kv.lookup hash).isSome then
    (s1, some NotFound)
  else
    ({ s1 with kv := s1.kv.insert hash value }, none)

/-- Go `(*Store).Delete`. -/
def Delete (H : Nat → List Byte → Nat) (s : Store) (key : ByteSlice) : Store × GoError :=
  let r := hashKey H s key
  let s1 := r.1
  let hash := r.2
  if ¬ (s1.kv.lookup hash).isSome then
    (s1, some NotFound)
  else
    ({ s1 with kv := s1.kv.erase hash }, none)

/-- The key is registered in the store: the comma-ok lookup `_, ok := s.kv[hash]` of its
digest gives `ok = true`. -/
def Registered (H : Nat → List Byte → Nat) (s : Store) (key : ByteSlice) : Prop :=
  (s.kv.lookup (hashKey H s key).2).isSome = true

instance (H : Nat → List Byte → Nat) (s : Store) (key : ByteSlice) :
    Decidable (Registered H s key) := by
  unfold Registered; infer_instance

/-- A sample 64-bit digest function (polynomial in the bytes, started at the seed), used to
run the operations on concrete inputs. -/
def polyHash (seed : Nat) (bs : List Byte) : Nat :=
  bs.foldl (fun acc b => acc * 257 + b.toNat + 1) seed

/-! ## Sample inputs -/

/-- The key `"k"` of the unit tests. -/
def keyK : ByteSlice := some [107]

/-- The key `"k1"` of the unit tests. -/
def keyK1 : ByteSlice := some [107, 49]

/-- The value `"v"` of the unit tests. -/
def valV : ByteSlice := some [118]

/-- The value `"v1"` of the unit tests. -/
def valV1 : ByteSlice := some [118, 49]

/-- The store of the unit tests after `Create("k", "v")` on a new store. -/
def storeK : Store := (Create polyHash (New 7) keyK valV).1

/-! ## Histories of calls -/

/-- One call on the store, with its arguments. -/
inductive Call where
  | create (key value : ByteSlice)
  | read (key : ByteSlice)
  | update (key value : ByteSlice)
  | delete (key : ByteSlice)
  deriving DecidableEq

/-- Perform one call: the store after it and the error it returned. -/
def Call.exec (H : Nat → List Byte → Nat) (s : Store) : Call → Store × GoError
  | .create k v => Create H s k v
  | .read k => ((Read H s k).1, (Read H s k).2.2)
  | .update k v => Update H s k v
  | .delete k => Delete H s k

/-- Perform the calls in order: the store after the last one, and the log pairing every call
with the error it returned. -/
def run (H : Nat → List Byte → Nat) : Store → List Call → Store × List (Call × GoError)
  | s, [] => (s, [])
  | s, c :: cs => ((run H (c.exec H s).1 cs).1, (c, (c.exec H s).2) :: (run H (c.exec H s).1 cs).2)

/-- No key selected by `P` was successfully created in the log. -/
def NeverCreated (P : ByteSlice → Prop) (log : List (Call × GoError)) : Prop :=
  ∀ k v, P k → (Call.create k v, none) ∉ log

/-- The log holds a last successful `Create` of a key selected by `P`, and a successful
`Delete` of a key selected by `P` after it. -/
def LastCreateDeleted (P : ByteSlice → Prop) (log : List (Call × GoError)) : Prop :=
  ∃ pre mid post kc v kd,
    log = pre ++ (Call.create kc v, none) :: (mid ++ (Call.delete kd, none) :: post) ∧
    P kc ∧ P kd ∧ ∀ k w, P k → (Call.create k w, none) ∉ mid ++ post

/-- The keys that are `k` itself: the same bytes. -/
def SameKey (k : ByteSlice) : ByteSlice → Prop :=
  fun k' => bytesOf k' = bytesOf k

/-- The keys that have the digest of `k` in a store whose hashing context has seed `seed`. -/
def SameDigest (H : Nat → List Byte → Nat) (seed : Nat) (k : ByteSlice) : ByteSlice → Prop :=
  fun k' => (hashKey H (New seed) k').2 = (hashKey H (New seed) k).2

/-- A short history on the key `"k"`, with a read of `"k1"` at the end. -/
def sampleCalls : List Call :=
  [Call.create keyK valV, Call.update keyK valV1, Call.delete keyK, Call.read keyK1]

/-! ## Results of histories -/

/-- What a call hands back to its caller: the slice `Read` returns (nil for the three calls
that return only an error) and the error. -/
def Call.result (H : Nat → List Byte → Nat) (s : Store) : Call → ByteSlice × GoError
  | .create k v => (none, (Create H s k v).2)
  | .read k => (Read H s k).2
  | .update k v => (none, (Update H s k v).2)
  | .delete k => (none, (Delete H s k).2)

/-- The results of the calls of a history, in order. -/
def results (H : Nat → List Byte → Nat) : Store → List Call → List (ByteSlice × GoError)
  | _, [] => []
  | s, c :: cs => c.result H s :: results H (c.exec H s).1 cs

/-- Remove from a list the positions that the marks flag `true`; positions past the end of
the marks are kept. -/
def dropMarked {α : Type} : List Bool → List α → List α
  | true :: m, _ :: xs => dropMarked m xs
  | false :: m, x :: xs => x :: dropMarked m xs
  | _, xs => xs

/-- Every position that the marks flag `true` holds a `Read` call. -/
def MarksReads : List Bool → List Call → Prop
  | true :: m, c :: cs => (∃ k, c = Call.read k) ∧ MarksReads m cs
  | false :: m, _ :: cs => MarksReads m cs
  | _, _ => True

/-- The stores reached from `s` by hashing the keys `ks` one after the other. -/
def hashAll (H : Nat → List Byte → Nat) (s : Store) (ks : List ByteSlice) : Store :=
  ks.foldl (fun t k => (hashKey H t k).1) s

/-- A sample digest function with collisions: the seed plus the sum of the bytes, so two
keys with the same bytes in another order have one digest. -/
def sumHash (seed : Nat) (bs : List Byte) : Nat :=
  bs.foldl (fun acc b => acc + b.toNat) seed

/-- The key `"ab"`. -/
def keyAB : ByteSlice := some [97, 98]

/-- The key `"ba"`, which has the digest of `"ab"` under `sumHash`. -/
def keyBA : ByteSlice := some [98, 97]

/-- The key `"key"` of the fuzz seed. -/
def keyKey : ByteSlice := some [107, 101, 121]

/-- The value `"value1"` of the fuzz seed. -/
def value1 : ByteSlice := some [118, 97, 108, 117, 101, 49]

/-- The value `"value2"` of the fuzz seed. -/
def value2 : ByteSlice := some [118, 97, 108, 117, 101, 50]

/-- The end-to-end scenario on the key `k`: create, read, update, read, delete, read. -/
def scenario (k v1 v2 : ByteSlice) : List Call :=
  [Call.create k v1, Call.read k, Call.update k v2, Call.read k, Call.delete k, Call.read k]

/-- A history on `"k"` with two reads of `"k"` and one of `"k1"` put in. -/
def callsWithReads : List Call :=
  [Call.read keyK, Call.create keyK valV, Call.read keyK, Call.update keyK valV1,
    Call.read keyK1, Call.delete keyK]

/-- The marks of the reads put into `callsWithReads`. -/
def readMarks : List Bool := [true, false, true, false, true, false]

/-! ## Basic facts about the operations -/

section lemmas
variable (H : Nat → List Byte → Nat)

theorem hashKey_kv (s : Store) (k : ByteSlice) : (hashKey H s k).1.kv = s.kv := rfl

theorem hashKey_seed (s : Store) (k : ByteSlice) :
    (hashKey H s k).1.hash.seed = s.hash.seed := rfl

theorem hashKey_digest (s : Store) (k : ByteSlice) :
    (hashKey H s k).2 = H s.hash.seed (bytesOf k) % 2 ^ 64 := by
  simp [hashKey, Hash.Sum64, Hash.Write, Hash.Reset]

theorem hashKey_digest_congr {s t : Store} (h : s.hash.seed = t.hash.seed) (k : ByteSlice) :
    (hashKey H s k).2 = (hashKey H t k).2 := by
  rw [hashKey_digest, hashKey_digest, h]

theorem Create_seed (s : Store) (k v : ByteSlice) :
    (Create H s k v).1.hash.seed = s.hash.seed := by
  unfold Create
  split
  · rfl
  · dsimp only
    split <;> rfl

theorem Read_seed (s : Store) (k : ByteSlice) :
    (Read H s k).1.hash.seed = s.hash.seed := by
  unfold Read
  dsimp only
  split <;> rfl

theorem Update_seed (s : Store) (k v : ByteSlice) :
    (Update H s k v).1.hash.seed = s.hash.seed := by
  unfold Update
  dsimp only
  split <;> rfl

theorem Delete_seed (s : Store) (k : ByteSlice) :
    (Delete H s k).1.hash.seed = s.hash.seed := by
  unfold Delete
  dsimp only
  split <;> rfl

theorem Create_kv (s : Store) (k v : ByteSlice) :
    (Create H s k v).1.kv =
      if len k = 0 then s.kv
      else if Registered H s k then s.kv else s.kv.insert (hashKey H s k).2 v := by
  unfold Create Registered
  by_cases hk : len k = 0
  · simp [hk]
  · by_cases hr : (Finmap.lookup (hashKey H s k).2 s.kv).isSome = true
    · simp [hk, hr, hashKey_kv]
    · simp [hk, hr, hashKey_kv]

theorem Create_err (s : Store) (k v : ByteSlice) :
    (Create H s k v).2 =
      if len k = 0 then some InvalidKey
      else if Registered H s k then some AlreadyExists else none := by
  unfold Create Registered
  by_cases hk : len k = 0
  · simp [hk]
  · by_cases hr : (Finmap.lookup (hashKey H s k).2 s.kv).isSome = true
    · simp [hk, hr, hashKey_kv]
    · simp [hk, hr, hashKey_kv]

theorem Read_kv (s : Store) (k : ByteSlice) : (Read H s k).1.kv = s.kv := by
  unfold Read
  dsimp only
  split <;> rfl

theorem Read_res (s : Store) (k : ByteSlice) :
    (Read H s k).2 =
      match s.kv.lookup (hashKey H s k).2 with
      | none => (none, some NotFound)
      | some v => (v, none) := by
  unfold Read
  dsimp only
  rw [hashKey_kv]
  split <;> rfl

theorem Update_kv (s : Store) (k v : ByteSlice) :
    (Update H s k v).1.kv =
      if Registered H s k then s.kv.insert (hashKey H s k).2 v else s.kv := by
  unfold Update Registered
  by_cases hr : (Finmap.lookup (hashKey H s k).2 s.kv).isSome = true
  · simp [hr, hashKey_kv]
  · simp [hr, hashKey_kv]

theorem Update_err (s : Store) (k v : ByteSlice) :
    (Update H s k v).2 = if Registered H s k then none else some NotFound := by
  unfold Update Registered
  by_cases hr : (Finmap.lookup (hashKey H s k).2 s.kv).isSome = true
  · simp [hr, hashKey_kv]
  · simp [hr, hashKey_kv]

theorem Delete_kv (s : Store) (k : ByteSlice) :
    (Delete H s k).1.kv =
      if Registered H s k then s.kv.erase (hashKey H s k).2 else s.kv := by
  unfold Delete Registered
  by_cases hr : (Finmap.lookup (hashKey H s k).2 s.kv).isSome = true
  · simp [hr, hashKey_kv]
  · simp [hr, hashKey_kv]

theorem Delete_err (s : Store) (k : ByteSlice) :
    (Delete H s k).2 = if Registered H s k then none else some NotFound := by
  unfold Delete Registered
  by_cases hr : (Finmap.lookup (hashKey H s k).2 s.kv).isSome = true
  · simp [hr, hashKey_kv]
  · simp [hr, hashKey_kv]

end lemmas

/-! ## Lookups after an operation -/

section lookups
variable (H : Nat → List Byte → Nat)

theorem Registered_of_seed {s t : Store} (h : t.hash.seed = s.hash.seed) (k : ByteSlice) :
    Registered H t k ↔ (t.kv.lookup (hashKey H s k).2).isSome = true := by
  unfold Registered
  rw [hashKey_digest_congr H h k]

theorem Read_res_of_seed {s t : Store} (h : t.hash.seed = s.hash.seed) (k : ByteSlice) :
    (Read H t k).2 =
      match t.kv.lookup (hashKey H s k).2 with
      | none => (none, some NotFound)
      | some v => (v, none) := by
  rw [Read_res, hashKey_digest_congr H h k]

theorem Create_ok_iff (s : Store) (k v : ByteSlice) :
    (Create H s k v).2 = none ↔ len k ≠ 0 ∧ ¬ Registered H s k := by
  rw [Create_err]
  by_cases hk : len k = 0
  · simp [hk]
  · by_cases hr : Registered H s k
    · simp [hk, hr]
    · simp [hk, hr]

theorem Create_ok_kv {s : Store} {k v : ByteSlice} (h : (Create H s k v).2 = none) :
    (Create H s k v).1.kv = s.kv.insert (hashKey H s k).2 v := by
  obtain ⟨hk, hr⟩ := (Create_ok_iff H s k v).1 h
  rw [Create_kv]
  simp [hk, hr]

theorem Create_fail_kv {s : Store} {k v : ByteSlice} (h : (Create H s k v).2 ≠ none) :
    (Create H s k v).1.kv = s.kv := by
  have hn : ¬ (len k ≠ 0 ∧ ¬ Registered H s k) := fun hc => h ((Create_ok_iff H s k v).2 hc)
  rw [Create_kv]
  by_cases hk : len k = 0
  · simp [hk]
  · by_cases hr : Registered H s k
    · simp [hk, hr]
    · exact absurd ⟨hk, hr⟩ hn

theorem Registered_after_Create {s : Store} {k v : ByteSlice}
    (h : (Create H s k v).2 = none) : Registered H (Create H s k v).1 k := by
  rw [Registered_of_seed H (Create_seed H s k v) k, Create_ok_kv H h, Finmap.lookup_insert]
  rfl

theorem Read_of_lookup {s t : Store} (h : t.hash.seed = s.hash.seed) {k v : ByteSlice}
    (hl : t.kv.lookup (hashKey H s k).2 = some v) : (Read H t k).2 = (v, none) := by
  rw [Read_res_of_seed H h k, hl]

theorem Read_of_not_Registered {s : Store} {k : ByteSlice} (h : ¬ Registered H s k) :
    (Read H s k).2 = (none, some NotFound) := by
  rw [Read_res]
  unfold Registered at h
  cases hl : Finmap.lookup (hashKey H s k).2 s.kv with
  | none => rfl
  | some v => rw [hl] at h; exact absurd rfl h

theorem not_Registered_New (seed : Nat) (k : ByteSlice) : ¬ Registered H (New seed) k := by
  unfold Registered
  simp [New, Finmap.lookup_empty]

end lookups

/-! ## Histories -/

section histories
variable (H : Nat → List Byte → Nat)

theorem exec_seed (s : Store) (c : Call) : (c.exec H s).1.hash.seed = s.hash.seed := by
  cases c with
  | create k v => exact Create_seed H s k v
  | read k => exact Read_seed H s k
  | update k v => exact Update_seed H s k v
  | delete k => exact Delete_seed H s k

theorem run_seed (calls : List Call) (s : Store) :
    (run H s calls).1.hash.seed = s.hash.seed := by
  induction calls generalizing s with
  | nil => rfl
  | cons c cs ih =>
    show (run H (c.exec H s).1 cs).1.hash.seed = s.hash.seed
    rw [ih, exec_seed]

/-- A call keeps a digest out of the table unless it is a successful `Create` of a key with
that digest. -/
theorem exec_lookup_none (s : Store) (c : Call) (d : Nat)
    (hd : s.kv.lookup d = none)
    (hc : ∀ k v, c = Call.create k v → (Create H s k v).2 = none → (hashKey H s k).2 ≠ d) :
    (c.exec H s).1.kv.lookup d = none := by
  cases c with
  | create k v =>
    show (Create H s k v).1.kv.lookup d = none
    by_cases hok : (Create H s k v).2 = none
    · rw [Create_ok_kv H hok, Finmap.lookup_insert_of_ne _ (hc k v rfl hok).symm, hd]
    · rw [Create_fail_kv H hok, hd]
  | read k =>
    show (Read H s k).1.kv.lookup d = none
    rw [Read_kv, hd]
  | update k v =>
    show (Update H s k v).1.kv.lookup d = none
    rw [Update_kv]
    by_cases hr : Registered H s k
    · have hne : d ≠ (hashKey H s k).2 := by
        intro he
        unfold Registered at hr
        rw [← he, hd] at hr
        exact Bool.noConfusion hr
      simp only [hr, if_true]
      rw [Finmap.lookup_insert_of_ne _ hne, hd]
    · simp only [hr, if_false]
      exact hd
  | delete k =>
    show (Delete H s k).1.kv.lookup d = none
    rw [Delete_kv]
    by_cases hr : Registered H s k
    · simp only [hr, if_true]
      by_cases he : d = (hashKey H s k).2
      · rw [he, Finmap.lookup_erase]
      · rw [Finmap.lookup_erase_ne he, hd]
    · simp only [hr, if_false]
      exact hd

/-- A history keeps a digest out of the table when its log has no successful `Create` of a
key with that digest. -/
theorem run_lookup_none (seed : Nat) (k : ByteSlice) (calls : List Call) (s : Store)
    (hs : s.hash.seed = seed)
    (hd : s.kv.lookup (hashKey H (New seed) k).2 = none)
    (hlog : NeverCreated (SameDigest H seed k) (run H s calls).2) :
    (run H s calls).1.kv.lookup (hashKey H (New seed) k).2 = none := by
  induction calls generalizing s with
  | nil => exact hd
  | cons c cs ih =>
    show (run H (c.exec H s).1 cs).1.kv.lookup _ = none
    have hlog' : ∀ k' v, SameDigest H seed k k' →
        (Call.create k' v, none) ∉
          (c, (c.exec H s).2) :: (run H (c.exec H s).1 cs).2 := hlog
    apply ih
    · rw [exec_seed, hs]
    · apply exec_lookup_none H s c _ hd
      intro k' v hc hok hdig
      subst hc
      have hsame : SameDigest H seed k k' := by
        unfold SameDigest
        rw [← hdig]
        exact hashKey_digest_congr H (by rw [hs]; rfl) k'
      apply hlog' k' v hsame
      have : (Call.create k' v).exec H s = Create H s k' v := rfl
      rw [this, hok]
      exact List.mem_cons_self _ _
    · intro k' v hP hmem
      exact hlog' k' v hP (List.mem_cons_of_mem _ hmem)

/-- A log that splits in two comes from a history that splits in two. -/
theorem run_split (l1 l2 : List (Call × GoError)) (calls : List Call) (s : Store)
    (h : (run H s calls).2 = l1 ++ l2) :
    ∃ c1 c2, calls = c1 ++ c2 ∧ (run H s c1).2 = l1 ∧
      (run H (run H s c1).1 c2).2 = l2 ∧
      (run H (run H s c1).1 c2).1 = (run H s calls).1 := by
  induction l1 generalizing calls s with
  | nil => exact ⟨[], calls, rfl, rfl, h, rfl⟩
  | cons x xs ih =>
    cases calls with
    | nil => exact absurd h (by simp [run])
    | cons c cs =>
      have h' : (c, (c.exec H s).2) :: (run H (c.exec H s).1 cs).2 = x :: (xs ++ l2) := h
      obtain ⟨hx, hrest⟩ := List.cons.inj h'
      obtain ⟨c1, c2, hcs, h1, h2, h3⟩ := ih cs (c.exec H s).1 hrest
      refine ⟨c :: c1, c2, by rw [hcs]; rfl, ?_, h2, h3⟩
      show (c, (c.exec H s).2) :: (run H (c.exec H s).1 c1).2 = x :: xs
      rw [hx, h1]

end histories

/-! ## The contract of the four operations -/

/-- C1 (round trip of Create and Read): in every store, for a non-empty key `k`, a `Create(k, v)`
that succeeds is followed by a `Read(k)` that succeeds and returns exactly `v` (nil stays nil);
on the store made by `New` the `Create` does succeed, so `Read(k)` returns `v`. -/
theorem create_read_roundtrip (H : Nat → List Byte → Nat) (s : Store) (seed : Nat)
    (k v : ByteSlice) (hk : len k ≠ 0) :
    ((Create H s k v).2 = none → (Read H (Create H s k v).1 k).2 = (v, none)) ∧
    (Create H (New seed) k v).2 = none ∧
    (Read H (Create H (New seed) k v).1 k).2 = (v, none) := by
  have step : ∀ t : Store, (Create H t k v).2 = none →
      (Read H (Create H t k v).1 k).2 = (v, none) := by
    intro t ht
    apply Read_of_lookup H (Create_seed H t k v)
    rw [Create_ok_kv H ht, Finmap.lookup_insert]
  have fresh : (Create H (New seed) k v).2 = none :=
    (Create_ok_iff H (New seed) k v).2 ⟨hk, not_Registered_New H seed k⟩
  exact ⟨step s, fresh, step (New seed) fresh⟩

/-- Witness of C1: the key `"k1"` created in the store that already holds `"k"`, and in a
new store. -/
theorem create_read_roundtrip_witness :
    len keyK1 ≠ 0 ∧
    (Create polyHash storeK keyK1 valV1).2 = none ∧
    (Read polyHash (Create polyHash storeK keyK1 valV1).1 keyK1).2 = (valV1, none) ∧
    (Create polyHash (New 7) keyK1 valV1).2 = none ∧
    (Read polyHash (Create polyHash (New 7) keyK1 valV1).1 keyK1).2 = (valV1, none) :=
  have h := create_read_roundtrip polyHash storeK 7 keyK1 valV1 (by decide)
  ⟨by decide, by decide, h.1 (by decide), h.2.1, h.2.2⟩

/-- C2 (empty-key rejection): in every store, `Create` with a zero-length key (nil or empty)
fails with the `InvalidKey` error and not with `AlreadyExists`, the store and its table are
the ones before the call, and every `Read` that failed with `NotFound` before still does. -/
theorem create_empty_key_rejected (H : Nat → List Byte → Nat) (s : Store) (k v : ByteSlice)
    (hk : len k = 0) :
    (Create H s k v).2 = some InvalidKey ∧
    (Create H s k v).2 ≠ some AlreadyExists ∧
    (Create H s k v).1 = s ∧
    (Create H s k v).1.kv = s.kv ∧
    ∀ k' : ByteSlice, (Read H s k').2.2 = some NotFound →
      (Read H (Create H s k v).1 k').2.2 = some NotFound := by
  have h : Create H s k v = (s, some InvalidKey) := by
    unfold Create
    simp [hk]
  rw [h]
  refine ⟨rfl, ?_, rfl, rfl, fun k' hr => hr⟩
  simp only [ne_eq, Option.some.injEq]
  decide

/-- Witness of C2: the nil key given to the store that holds `"k"`. -/
theorem create_empty_key_rejected_witness :
    len none = 0 ∧
    (Create polyHash storeK none valV).2 = some InvalidKey ∧
    (Create polyHash storeK none valV).2 ≠ some AlreadyExists ∧
    (Create polyHash storeK none valV).1.kv = storeK.kv ∧
    (Read polyHash storeK keyK1).2.2 = some NotFound ∧
    (Read polyHash (Create polyHash storeK none valV).1 keyK1).2.2 = some NotFound :=
  have h := create_empty_key_rejected polyHash storeK none valV (by decide)
  ⟨by decide, h.1, h.2.1, h.2.2.2.1, by decide, h.2.2.2.2 keyK1 (by decide)⟩

/-- C3 (uniqueness enforcement): in every store, once `Create(k, v1)` has succeeded, a following
`Create(k, v2)` fails with the `AlreadyExists` error and the `Read(k)` after it still returns
`v1`. -/
theorem create_twice_already_exists (H : Nat → List Byte → Nat) (s : Store)
    (k v1 v2 : ByteSlice) (h : (Create H s k v1).2 = none) :
    (Create H (Create H s k v1).1 k v2).2 = some AlreadyExists ∧
    (Read H (Create H (Create H s k v1).1 k v2).1 k).2 = (v1, none) := by
  have hk : len k ≠ 0 := ((Create_ok_iff H s k v1).1 h).1
  have hr : Registered H (Create H s k v1).1 k := Registered_after_Create H h
  have hseed : (Create H (Create H s k v1).1 k v2).1.hash.seed = s.hash.seed := by
    rw [Create_seed, Create_seed]
  constructor
  · rw [Create_err]
    simp [hk, hr]
  · apply Read_of_lookup H hseed
    rw [Create_kv]
    simp only [hk, hr, if_true, if_false]
    rw [Create_ok_kv H h, Finmap.lookup_insert]

/-- Witness of C3: `"k"` created twice on a new store. -/
theorem create_twice_already_exists_witness :
    (Create polyHash (New 7) keyK valV).2 = none ∧
    (Create polyHash (Create polyHash (New 7) keyK valV).1 keyK valV1).2 = some AlreadyExists ∧
    (Read polyHash (Create polyHash (Create polyHash (New 7) keyK valV).1 keyK valV1).1 keyK).2 =
      (valV, none) :=
  ⟨by decide, create_twice_already_exists polyHash (New 7) keyK valV valV1 (by decide)⟩

/-- C4 (missing-key operations on a new store): on the store made by `New`, for every key
(the empty one included) and value, `Read`, `Update` and `Delete` each fail with the
`NotFound` error, `Read` returns the nil slice with it, and the table is still empty. -/
theorem fresh_store_not_found (H : Nat → List Byte → Nat) (seed : Nat) (k v : ByteSlice) :
    (Read H (New seed) k).2 = (none, some NotFound) ∧
    (Read H (New seed) k).1.kv = ∅ ∧
    (Update H (New seed) k v).2 = some NotFound ∧
    (Update H (New seed) k v).1.kv = ∅ ∧
    (Delete H (New seed) k).2 = some NotFound ∧
    (Delete H (New seed) k).1.kv = ∅ := by
  have hr : ¬ Registered H (New seed) k := not_Registered_New H seed k
  refine ⟨Read_of_not_Registered H hr, ?_, ?_, ?_, ?_, ?_⟩
  · rw [Read_kv]; rfl
  · rw [Update_err]; simp [hr]
  · rw [Update_kv]; simp [hr]; rfl
  · rw [Delete_err]; simp [hr]
  · rw [Delete_kv]; simp [hr]; rfl

/-- C5 (update visibility): in every store where `k` is registered, `Update(k, v2)` succeeds
and the following `Read(k)` succeeds and returns exactly `v2`; a store reached by a
successful `Create(k, v1)` is such a store. -/
theorem update_visible (H : Nat → List Byte → Nat) (s : Store) (k v1 v2 : ByteSlice) :
    (Registered H s k →
      (Update H s k v2).2 = none ∧ (Read H (Update H s k v2).1 k).2 = (v2, none)) ∧
    ((Create H s k v1).2 = none →
      Registered H (Create H s k v1).1 k ∧
      (Update H (Create H s k v1).1 k v2).2 = none ∧
      (Read H (Update H (Create H s k v1).1 k v2).1 k).2 = (v2, none)) := by
  have step : ∀ t : Store, Registered H t k →
      (Update H t k v2).2 = none ∧ (Read H (Update H t k v2).1 k).2 = (v2, none) := by
    intro t ht
    constructor
    · rw [Update_err]; simp [ht]
    · apply Read_of_lookup H (Update_seed H t k v2)
      rw [Update_kv]
      simp only [ht, if_true]
      exact Finmap.lookup_insert _
  exact ⟨step s, fun h => ⟨Registered_after_Create H h,
    step _ (Registered_after_Create H h)⟩⟩

/-- Witness of C5: `"k"` updated in the store that holds it, and right after its creation. -/
theorem update_visible_witness :
    Registered polyHash storeK keyK ∧
    (Update polyHash storeK keyK valV1).2 = none ∧
    (Read polyHash (Update polyHash storeK keyK valV1).1 keyK).2 = (valV1, none) ∧
    (Create polyHash (New 7) keyK valV).2 = none ∧
    (Read polyHash (Update polyHash (Create polyHash (New 7) keyK valV).1 keyK valV1).1 keyK).2 =
      (valV1, none) :=
  have h := update_visible polyHash storeK keyK valV valV1
  have h' := update_visible polyHash (New 7) keyK valV valV1
  ⟨by decide, (h.1 (by decide)).1, (h.1 (by decide)).2, by decide, (h'.2 (by decide)).2.2⟩

/-- C6 (delete finality): in every store where `k` is registered, `Delete(k)` succeeds, the
following `Read(k)` fails with `NotFound` (returning nil), and a further `Delete(k)` or
`Update(k, v')` fails with `NotFound` too; a store reached by a successful `Create(k, v)`
is such a store. -/
theorem delete_final (H : Nat → List Byte → Nat) (s : Store) (k v v' : ByteSlice) :
    (Registered H s k →
      (Delete H s k).2 = none ∧
      (Read H (Delete H s k).1 k).2 = (none, some NotFound) ∧
      (Delete H (Delete H s k).1 k).2 = some NotFound ∧
      (Update H (Delete H s k).1 k v').2 = some NotFound) ∧
    ((Create H s k v).2 = none →
      (Delete H (Create H s k v).1 k).2 = none ∧
      (Read H (Delete H (Create H s k v).1 k).1 k).2 = (none, some NotFound) ∧
      (Delete H (Delete H (Create H s k v).1 k).1 k).2 = some NotFound ∧
      (Update H (Delete H (Create H s k v).1 k).1 k v').2 = some NotFound) := by
  have step : ∀ t : Store, Registered H t k →
      (Delete H t k).2 = none ∧
      (Read H (Delete H t k).1 k).2 = (none, some NotFound) ∧
      (Delete H (Delete H t k).1 k).2 = some NotFound ∧
      (Update H (Delete H t k).1 k v').2 = some NotFound := by
    intro t ht
    have gone : ¬ Registered H (Delete H t k).1 k := by
      rw [Registered_of_seed H (Delete_seed H t k) k, Delete_kv]
      simp only [ht, if_true]
      rw [Finmap.lookup_erase]
      simp
    refine ⟨?_, Read_of_not_Registered H gone, ?_, ?_⟩
    · rw [Delete_err]; simp [ht]
    · rw [Delete_err]; simp [gone]
    · rw [Update_err]; simp [gone]
  exact ⟨step s, fun h => step _ (Registered_after_Create H h)⟩

/-- Witness of C6: `"k"` deleted from the store that holds it, and right after its creation. -/
theorem delete_final_witness :
    Registered polyHash storeK keyK ∧
    (Delete polyHash storeK keyK).2 = none ∧
    (Read polyHash (Delete polyHash storeK keyK).1 keyK).2 = (none, some NotFound) ∧
    (Delete polyHash (Delete polyHash storeK keyK).1 keyK).2 = some NotFound ∧
    (Update polyHash (Delete polyHash storeK keyK).1 keyK valV1).2 = some NotFound ∧
    (Create polyHash (New 7) keyK valV).2 = none ∧
    (Read polyHash (Delete polyHash (Create polyHash (New 7) keyK valV).1 keyK).1 keyK).2 =
      (none, some NotFound) :=
  have h := delete_final polyHash storeK keyK valV valV1
  have h' := delete_final polyHash (New 7) keyK valV valV1
  ⟨by decide, (h.1 (by decide)).1, (h.1 (by decide)).2.1, (h.1 (by decide)).2.2.1,
    (h.1 (by decide)).2.2.2, by decide, (h'.2 (by decide)).2.1⟩

/-- C7 (atomicity on failure): in every store, whenever `Create`, `Read`, `Update` or `Delete`
returns an error, the table after the call is the table before it. -/
theorem error_keeps_table (H : Nat → List Byte → Nat) (s : Store) (k v : ByteSlice) :
    ((Create H s k v).2 ≠ none → (Create H s k v).1.kv = s.kv) ∧
    ((Read H s k).2.2 ≠ none → (Read H s k).1.kv = s.kv) ∧
    ((Update H s k v).2 ≠ none → (Update H s k v).1.kv = s.kv) ∧
    ((Delete H s k).2 ≠ none → (Delete H s k).1.kv = s.kv) := by
  refine ⟨fun h => Create_fail_kv H h, fun _ => Read_kv H s k, ?_, ?_⟩
  · rw [Update_err, Update_kv]
    by_cases hr : Registered H s k
    · simp [hr]
    · simp [hr]
  · rw [Delete_err, Delete_kv]
    by_cases hr : Registered H s k
    · simp [hr]
    · simp [hr]

/-- Witness of C7: in the store that holds `"k"`, a second `Create` of `"k"` and a `Read`,
`Update` and `Delete` of `"k1"` all fail and leave the table as it was. -/
theorem error_keeps_table_witness :
    ((Create polyHash storeK keyK valV1).2 ≠ none ∧
      (Create polyHash storeK keyK valV1).1.kv = storeK.kv) ∧
    ((Read polyHash storeK keyK1).2.2 ≠ none ∧ (Read polyHash storeK keyK1).1.kv = storeK.kv) ∧
    ((Update polyHash storeK keyK1 valV1).2 ≠ none ∧
      (Update polyHash storeK keyK1 valV1).1.kv = storeK.kv) ∧
    ((Delete polyHash storeK keyK1).2 ≠ none ∧ (Delete polyHash storeK keyK1).1.kv = storeK.kv) :=
  have h := error_keeps_table polyHash storeK keyK valV1
  have h' := error_keeps_table polyHash storeK keyK1 valV1
  ⟨⟨by decide, h.1 (by decide)⟩, ⟨by decide, h'.2.1 (by decide)⟩,
    ⟨by decide, h'.2.2.1 (by decide)⟩, ⟨by decide, h'.2.2.2 (by decide)⟩⟩

/-- C8 (failure conditions): in every store, `Read`, `Update` and `Delete` fail exactly when the
key is not registered and the error is then `NotFound`; `Create` fails with `InvalidKey`
exactly when the key has length zero, with `AlreadyExists` exactly when the key is non-empty
and registered, and succeeds exactly in the remaining case; the three error messages are
pairwise distinct, so `NotFound` is never `InvalidKey`. -/
theorem failure_conditions (H : Nat → List Byte → Nat) (s : Store) (k v : ByteSlice) :
    (((Read H s k).2.2 ≠ none ↔ ¬ Registered H s k) ∧
      ((Read H s k).2.2 = none ∨ (Read H s k).2.2 = some NotFound)) ∧
    (((Update H s k v).2 ≠ none ↔ ¬ Registered H s k) ∧
      ((Update H s k v).2 = none ∨ (Update H s k v).2 = some NotFound)) ∧
    (((Delete H s k).2 ≠ none ↔ ¬ Registered H s k) ∧
      ((Delete H s k).2 = none ∨ (Delete H s k).2 = some NotFound)) ∧
    (((Create H s k v).2 = some InvalidKey ↔ len k = 0) ∧
      ((Create H s k v).2 = some AlreadyExists ↔ len k ≠ 0 ∧ Registered H s k) ∧
      ((Create H s k v).2 = none ↔ len k ≠ 0 ∧ ¬ Registered H s k) ∧
      ((Create H s k v).2 = none ∨ (Create H s k v).2 = some InvalidKey ∨
        (Create H s k v).2 = some AlreadyExists)) ∧
    (NotFound ≠ InvalidKey ∧ NotFound ≠ AlreadyExists ∧ InvalidKey ≠ AlreadyExists) := by
  have hne : InvalidKey ≠ AlreadyExists := by decide
  refine ⟨?_, ?_, ?_, ?_, by decide, by decide, hne⟩
  · by_cases hr : Registered H s k
    · have hr' := hr
      unfold Registered at hr'
      obtain ⟨w, hw⟩ := Option.isSome_iff_exists.1 hr'
      have : (Read H s k).2 = (w, none) := Read_of_lookup H rfl hw
      simp [this, hr]
    · simp [Read_of_not_Registered H hr, hr]
  · rw [Update_err]
    by_cases hr : Registered H s k
    · simp [hr]
    · simp [hr]
  · rw [Delete_err]
    by_cases hr : Registered H s k
    · simp [hr]
    · simp [hr]
  · rw [Create_err]
    by_cases hk : len k = 0
    · simp [hk, hne]
    · by_cases hr : Registered H s k
      · simp [hk, hr, hne.symm]
      · simp [hk, hr]

/-- C10 (Update does not create the key): in every store where `k` is not registered,
`Update(k, v)` fails with `NotFound` and leaves the table as it was; afterwards `k` is still
not registered, `Read(k)` still fails with `NotFound`, and `Create(k, v')` for a non-empty
`k` still succeeds. -/
theorem update_does_not_create (H : Nat → List Byte → Nat) (s : Store) (k v v' : ByteSlice)
    (h : ¬ Registered H s k) :
    (Update H s k v).2 = some NotFound ∧
    (Update H s k v).1.kv = s.kv ∧
    ¬ Registered H (Update H s k v).1 k ∧
    (Read H (Update H s k v).1 k).2 = (none, some NotFound) ∧
    (len k ≠ 0 → (Create H (Update H s k v).1 k v').2 = none) := by
  have hkv : (Update H s k v).1.kv = s.kv := by
    rw [Update_kv]; simp [h]
  have still : ¬ Registered H (Update H s k v).1 k := by
    rw [Registered_of_seed H (Update_seed H s k v) k, hkv]
    exact h
  refine ⟨?_, hkv, still, Read_of_not_Registered H still, fun hk => ?_⟩
  · rw [Update_err]; simp [h]
  · exact (Create_ok_iff H _ k v').2 ⟨hk, still⟩

/-- Witness of C10: `"k1"` updated in the store that holds only `"k"`. -/
theorem update_does_not_create_witness :
    ¬ Registered polyHash storeK keyK1 ∧
    (Update polyHash storeK keyK1 valV).2 = some NotFound ∧
    (Update polyHash storeK keyK1 valV).1.kv = storeK.kv ∧
    (Read polyHash (Update polyHash storeK keyK1 valV).1 keyK1).2 = (none, some NotFound) ∧
    len keyK1 ≠ 0 ∧
    (Create polyHash (Update polyHash storeK keyK1 valV).1 keyK1 valV1).2 = none :=
  have h := update_does_not_create polyHash storeK keyK1 valV valV1 (by decide)
  ⟨by decide, h.1, h.2.1, h.2.2.2.1, by decide, h.2.2.2.2 (by decide)⟩

/-! ## Digest collisions -/

/-- Whatever the digest function and the seed, two different non-empty byte sequences have
the same 64-bit digest: there are more byte sequences than digests. -/
theorem exists_collision (H : Nat → List Byte → Nat) (seed : Nat) :
    ∃ b1 b2 : List Byte, b1.length ≠ 0 ∧ b2.length ≠ 0 ∧ b1 ≠ b2 ∧
      H seed b1 % 2 ^ 64 = H seed b2 % 2 ^ 64 := by
  let f : ℕ → Fin (2 ^ 64) := fun n =>
    ⟨H seed (List.replicate (n + 1) 0) % 2 ^ 64, Nat.mod_lt _ (by norm_num)⟩
  have hf : ¬ Function.Injective f := not_injective_infinite_finite f
  unfold Function.Injective at hf
  push_neg at hf
  obtain ⟨n, m, hfe, hne⟩ := hf
  refine ⟨List.replicate (n + 1) 0, List.replicate (m + 1) 0, ?_, ?_, ?_, ?_⟩
  · simp
  · simp
  · intro he
    have := congrArg List.length he
    simp at this
    exact hne this
  · exact congrArg Fin.val hfe

/-! ## The table over histories -/

/-- C9, as stated, fails for every digest function: there is no digest function and seed for
which every history started on a new store and every key `k` that was never successfully
created (or whose last successful `Create` was followed by a successful `Delete`) make
`Read(k)`, `Update(k, v)` and `Delete(k)` fail with `NotFound`.  Two different non-empty
keys with one digest exist, and after `Create` of the first, `Read` of the second succeeds. -/
theorem history_by_key_fails :
    ¬ ∃ (H : Nat → List Byte → Nat) (seed : Nat),
      ∀ (calls : List Call) (k v : ByteSlice),
        (NeverCreated (SameKey k) (run H (New seed) calls).2 ∨
          LastCreateDeleted (SameKey k) (run H (New seed) calls).2) →
        (Read H (run H (New seed) calls).1 k).2 = (none, some NotFound) ∧
        (Update H (run H (New seed) calls).1 k v).2 = some NotFound ∧
        (Delete H (run H (New seed) calls).1 k).2 = some NotFound := by
  rintro ⟨H, seed, hall⟩
  obtain ⟨b1, b2, h1, _, hne, hcol⟩ := exists_collision H seed
  have hrun : run H (New seed) [Call.create (some b1) none] =
      ((Create H (New seed) (some b1) none).1,
        [(Call.create (some b1) none, (Create H (New seed) (some b1) none).2)]) := rfl
  have hok : (Create H (New seed) (some b1) none).2 = none :=
    (Create_ok_iff H (New seed) (some b1) none).2 ⟨h1, not_Registered_New H seed (some b1)⟩
  have hnever : NeverCreated (SameKey (some b2))
      (run H (New seed) [Call.create (some b1) none]).2 := by
    intro k' w hk' hmem
    rw [hrun] at hmem
    simp only [List.mem_singleton, Prod.mk.injEq, Call.create.injEq] at hmem
    apply hne
    have : bytesOf k' = b2 := hk'
    rw [← this, hmem.1.1]
    rfl
  have hread := (hall [Call.create (some b1) none] (some b2) none (Or.inl hnever)).1
  rw [hrun] at hread
  have hdig : (hashKey H (New seed) (some b2)).2 = (hashKey H (New seed) (some b1)).2 := by
    rw [hashKey_digest, hashKey_digest]
    exact hcol.symm
  have hfound : (Read H (Create H (New seed) (some b1) none).1 (some b2)).2 = (none, none) := by
    apply Read_of_lookup H (Create_seed H (New seed) (some b1) none)
    rw [Create_ok_kv H hok, hdig, Finmap.lookup_insert]
  rw [hfound] at hread
  exact absurd (congrArg Prod.snd hread) (by simp)

/-- C9, amended to digests: for every history started on a new store and every key `k`, if
no key with the digest of `k` was successfully created in it, or the last successful
`Create` of such a key was followed by a successful `Delete` of such a key, then the table
has no entry for the digest of `k`: `Read(k)`, `Update(k, v)` and `Delete(k)` fail with
`NotFound`. -/
theorem history_by_digest (H : Nat → List Byte → Nat) (seed : Nat) (calls : List Call)
    (k v : ByteSlice)
    (h : NeverCreated (SameDigest H seed k) (run H (New seed) calls).2 ∨
      LastCreateDeleted (SameDigest H seed k) (run H (New seed) calls).2) :
    (run H (New seed) calls).1.kv.lookup (hashKey H (New seed) k).2 = none ∧
    (Read H (run H (New seed) calls).1 k).2 = (none, some NotFound) ∧
    (Update H (run H (New seed) calls).1 k v).2 = some NotFound ∧
    (Delete H (run H (New seed) calls).1 k).2 = some NotFound := by
  have hl : (run H (New seed) calls).1.kv.lookup (hashKey H (New seed) k).2 = none := by
    rcases h with h | ⟨pre, mid, post, kc, w, kd, hlog, _, hPd, hno⟩
    · exact run_lookup_none H seed k calls (New seed) rfl (Finmap.lookup_empty _) h
    · have hlog' : (run H (New seed) calls).2 =
          (pre ++ (Call.create kc w, none) :: mid) ++ (Call.delete kd, none) :: post := by
        rw [hlog]; simp
      obtain ⟨c1, c2, _, _, h2, h3⟩ := run_split H _ _ calls (New seed) hlog'
      have hs1 : (run H (New seed) c1).1.hash.seed = seed := run_seed H c1 (New seed)
      cases c2 with
      | nil => exact absurd h2 (by simp [run])
      | cons c cs =>
        have h2' : (c, (c.exec H (run H (New seed) c1).1).2) ::
            (run H (c.exec H (run H (New seed) c1).1).1 cs).2 =
            (Call.delete kd, none) :: post := h2
        obtain ⟨hc, hpost⟩ := List.cons.inj h2'
        obtain ⟨hc1, hc2⟩ := Prod.mk.inj hc
        subst hc1
        have hdel : (Delete H (run H (New seed) c1).1 kd).2 = none := hc2
        have hreg : Registered H (run H (New seed) c1).1 kd := by
          by_contra hr
          rw [Delete_err] at hdel
          simp [hr] at hdel
        have hdig : (hashKey H (run H (New seed) c1).1 kd).2 = (hashKey H (New seed) k).2 := by
          rw [hashKey_digest_congr H (show (run H (New seed) c1).1.hash.seed =
            (New seed).hash.seed from hs1) kd]
          exact hPd
        rw [← h3]
        show (run H (Delete H (run H (New seed) c1).1 kd).1 cs).1.kv.lookup _ = none
        apply run_lookup_none H seed k cs
        · rw [Delete_seed, hs1]
        · rw [Delete_kv]
          simp only [hreg, if_true]
          rw [hdig, Finmap.lookup_erase]
        · intro k' w' hP hmem
          have hmem' : (Call.create k' w', none) ∈ post := by
            rw [← hpost]; exact hmem
          exact hno k' w' hP (List.mem_append_right _ hmem')
  have hnot : ¬ Registered H (run H (New seed) calls).1 k := by
    rw [Registered_of_seed H (show (run H (New seed) calls).1.hash.seed =
      (New seed).hash.seed from run_seed H calls (New seed)) k, hl]
    simp
  refine ⟨hl, Read_of_not_Registered H hnot, ?_, ?_⟩
  · rw [Update_err]; simp [hnot]
  · rw [Delete_err]; simp [hnot]

/-- Witness of C9 as amended: create, update and delete `"k"` on a new store, then read
`"k1"`; the last successful `Create` with the digest of `"k"` is followed by a successful
`Delete` with that digest. -/
theorem history_by_digest_witness :
    LastCreateDeleted (SameDigest polyHash 7 keyK) (run polyHash (New 7) sampleCalls).2 ∧
    (run polyHash (New 7) sampleCalls).1.kv.lookup (hashKey polyHash (New 7) keyK).2 = none ∧
    (Read polyHash (run polyHash (New 7) sampleCalls).1 keyK).2 = (none, some NotFound) ∧
    (Update polyHash (run polyHash (New 7) sampleCalls).1 keyK valV).2 = some NotFound ∧
    (Delete polyHash (run polyHash (New 7) sampleCalls).1 keyK).2 = some NotFound :=
  have hyp : LastCreateDeleted (SameDigest polyHash 7 keyK)
      (run polyHash (New 7) sampleCalls).2 :=
    ⟨[], [(Call.update keyK valV1, none)], [(Call.read keyK1, some NotFound)], keyK, valV, keyK,
      by decide, rfl, rfl, by
        intro k w _ hmem
        simp at hmem⟩
  ⟨hyp, history_by_digest polyHash 7 sampleCalls keyK valV (Or.inr hyp)⟩

/-! ## Calls depend on the table and the seed only -/

section congruence
variable (H : Nat → List Byte → Nat)

theorem Registered_congr {s t : Store} (hkv : s.kv = t.kv) (hseed : s.hash.seed = t.hash.seed)
    (k : ByteSlice) : Registered H s k ↔ Registered H t k := by
  unfold Registered
  rw [hashKey_digest_congr H hseed k, hkv]

theorem exec_congr {s t : Store} (hkv : s.kv = t.kv) (hseed : s.hash.seed = t.hash.seed)
    (c : Call) :
    (c.exec H s).1.kv = (c.exec H t).1.kv ∧
    (c.exec H s).1.hash.seed = (c.exec H t).1.hash.seed ∧
    c.result H s = c.result H t := by
  have hd : ∀ k, (hashKey H s k).2 = (hashKey H t k).2 := hashKey_digest_congr H hseed
  have hr : ∀ k, Registered H s k ↔ Registered H t k := Registered_congr H hkv hseed
  refine ⟨?_, by rw [exec_seed, exec_seed, hseed], ?_⟩
  · cases c with
    | create k v =>
      show (Create H s k v).1.kv = (Create H t k v).1.kv
      rw [Create_kv, Create_kv, hd, hkv]
      simp only [hr]
    | read k =>
      show (Read H s k).1.kv = (Read H t k).1.kv
      rw [Read_kv, Read_kv, hkv]
    | update k v =>
      show (Update H s k v).1.kv = (Update H t k v).1.kv
      rw [Update_kv, Update_kv, hd, hkv]
      simp only [hr]
    | delete k =>
      show (Delete H s k).1.kv = (Delete H t k).1.kv
      rw [Delete_kv, Delete_kv, hd, hkv]
      simp only [hr]
  · cases c with
    | create k v =>
      show (none, (Create H s k v).2) = (none, (Create H t k v).2)
      rw [Create_err, Create_err]
      simp only [hr]
    | read k =>
      show (Read H s k).2 = (Read H t k).2
      rw [Read_res, Read_res, hd, hkv]
    | update k v =>
      show (none, (Update H s k v).2) = (none, (Update H t k v).2)
      rw [Update_err, Update_err]
      simp only [hr]
    | delete k =>
      show (none, (Delete H s k).2) = (none, (Delete H t k).2)
      rw [Delete_err, Delete_err]
      simp only [hr]

theorem run_congr (cs : List Call) {s t : Store} (hkv : s.kv = t.kv)
    (hseed : s.hash.seed = t.hash.seed) :
    (run H s cs).1.kv = (run H t cs).1.kv ∧ results H s cs = results H t cs := by
  induction cs generalizing s t with
  | nil => exact ⟨hkv, rfl⟩
  | cons c cs ih =>
    obtain ⟨h1, h2, h3⟩ := exec_congr H hkv hseed c
    obtain ⟨i1, i2⟩ := ih h1 h2
    refine ⟨i1, ?_⟩
    show c.result H s :: results H (c.exec H s).1 cs =
      c.result H t :: results H (c.exec H t).1 cs
    rw [h3, i2]

theorem dropMarked_nil {α : Type} (xs : List α) : dropMarked [] xs = xs := by
  cases xs <;> rfl

theorem dropMarked_run (m : List Bool) (cs : List Call) {s t : Store} (hkv : s.kv = t.kv)
    (hseed : s.hash.seed = t.hash.seed) (hm : MarksReads m cs) :
    (run H s (dropMarked m cs)).1.kv = (run H t cs).1.kv ∧
    results H s (dropMarked m cs) = dropMarked m (results H t cs) := by
  induction m generalizing cs s t with
  | nil =>
    rw [dropMarked_nil, dropMarked_nil]
    exact run_congr H cs hkv hseed
  | cons b m ih =>
    cases cs with
    | nil =>
      cases b <;> exact ⟨hkv, rfl⟩
    | cons c cs =>
      cases b with
      | true =>
        obtain ⟨⟨k, hk⟩, hm'⟩ := hm
        subst hk
        have hkv' : s.kv = ((Call.read k).exec H t).1.kv := by
          show s.kv = (Read H t k).1.kv
          rw [Read_kv, hkv]
        have hseed' : s.hash.seed = ((Call.read k).exec H t).1.hash.seed := by
          rw [exec_seed, hseed]
        exact ih cs hkv' hseed' hm'
      | false =>
        have hm' : MarksReads m cs := hm
        obtain ⟨h1, h2, h3⟩ := exec_congr H hkv hseed c
        obtain ⟨i1, i2⟩ := ih cs h1 h2 hm'
        refine ⟨i1, ?_⟩
        show c.result H s :: results H (c.exec H s).1 (dropMarked m cs) =
          c.result H t :: dropMarked m (results H (c.exec H t).1 cs)
        rw [h3, i2]

end congruence

/-! ## Frame properties and scenarios -/

/-- C11 (Read has no side effects on the table): in every store, whether `Read(k)` succeeds or
fails, the table after it is the table before it; hence for every history in which some
`Read` calls are marked as put in, the history without them reaches the same table and
returns, call for call, the same results. -/
theorem read_keeps_table (H : Nat → List Byte → Nat) (s : Store) (k : ByteSlice)
    (marks : List Bool) (calls : List Call) (hm : MarksReads marks calls) :
    (Read H s k).1.kv = s.kv ∧
    (run H s (dropMarked marks calls)).1.kv = (run H s calls).1.kv ∧
    results H s (dropMarked marks calls) = dropMarked marks (results H s calls) :=
  ⟨Read_kv H s k, dropMarked_run H marks calls rfl rfl hm⟩

/-- Witness of C11: three reads put into create, update, delete of `"k"` on a new store. -/
theorem read_keeps_table_witness :
    MarksReads readMarks callsWithReads ∧
    dropMarked readMarks callsWithReads =
      [Call.create keyK valV, Call.update keyK valV1, Call.delete keyK] ∧
    (Read polyHash storeK keyK).1.kv = storeK.kv ∧
    (run polyHash (New 7) (dropMarked readMarks callsWithReads)).1.kv =
      (run polyHash (New 7) callsWithReads).1.kv ∧
    results polyHash (New 7) (dropMarked readMarks callsWithReads) =
      dropMarked readMarks (results polyHash (New 7) callsWithReads) :=
  have hm : MarksReads readMarks callsWithReads := by
    simp [MarksReads, readMarks, callsWithReads]
  have h := read_keeps_table polyHash (New 7) keyK readMarks callsWithReads hm
  have h' := read_keeps_table polyHash storeK keyK readMarks callsWithReads hm
  ⟨hm, by decide, h'.1, h.2.1, h.2.2⟩

/-! ## Facts about the table -/

theorem Table_erase_insert (t : Table) (d : Nat) (v : ByteSlice) (h : t.lookup d = none) :
    (t.insert d v).erase d = t := by
  apply Finmap.ext_lookup
  intro x
  by_cases hx : x = d
  · subst hx
    rw [Finmap.lookup_erase, h]
  · rw [Finmap.lookup_erase_ne hx, Finmap.lookup_insert_of_ne _ hx]

theorem Table_keys_insert (t : Table) (d : Nat) (v : ByteSlice) :
    (t.insert d v).keys = insert d t.keys := by
  ext x
  rw [Finmap.mem_keys, Finmap.mem_insert, Finset.mem_insert, Finmap.mem_keys]

theorem Table_mem_keys_iff (t : Table) (d : Nat) :
    d ∈ t.keys ↔ (t.lookup d).isSome = true := by
  rw [Finmap.mem_keys, Finmap.lookup_isSome]

theorem New_kv (seed : Nat) : (New seed).kv = ∅ := rfl

theorem New_seed (seed : Nat) : (New seed).hash.seed = seed := rfl

/-- C12 (end-to-end scenario): on the store made by `New`, for every non-empty key `k` and
values `v1`, `v2`: `Create(k, v1)` succeeds, `Read(k)` returns `v1`, `Update(k, v2)` succeeds,
`Read(k)` returns `v2`, `Delete(k)` succeeds, the last `Read(k)` fails with `NotFound`, and
the table is empty again. -/
theorem end_to_end_scenario (H : Nat → List Byte → Nat) (seed : Nat) (k v1 v2 : ByteSlice)
    (hk : len k ≠ 0) :
    results H (New seed) (scenario k v1 v2) =
      [(none, none), (v1, none), (none, none), (v2, none), (none, none),
        (none, some NotFound)] ∧
    (run H (New seed) (scenario k v1 v2)).1.kv = ∅ := by
  have c1 : (Create H (New seed) k v1).2 = none :=
    (Create_ok_iff H (New seed) k v1).2 ⟨hk, not_Registered_New H seed k⟩
  have kv1 : (Create H (New seed) k v1).1.kv =
      (∅ : Table).insert (hashKey H (New seed) k).2 v1 := Create_ok_kv H c1
  have sd1 : (Create H (New seed) k v1).1.hash.seed = (New seed).hash.seed := Create_seed _ _ _ _
  have r1 : (Read H (Create H (New seed) k v1).1 k).2 = (v1, none) := by
    apply Read_of_lookup H sd1
    rw [kv1, Finmap.lookup_insert]
  have kv2 : (Read H (Create H (New seed) k v1).1 k).1.kv =
      (∅ : Table).insert (hashKey H (New seed) k).2 v1 := by rw [Read_kv, kv1]
  have sd2 : (Read H (Create H (New seed) k v1).1 k).1.hash.seed = (New seed).hash.seed := by
    rw [Read_seed, sd1]
  have g2 : Registered H (Read H (Create H (New seed) k v1).1 k).1 k := by
    rw [Registered_of_seed H sd2 k, kv2, Finmap.lookup_insert]
    rfl
  have u3 : (Update H (Read H (Create H (New seed) k v1).1 k).1 k v2).2 = none := by
    rw [Update_err]; simp [g2]
  have kv3 : (Update H (Read H (Create H (New seed) k v1).1 k).1 k v2).1.kv =
      (∅ : Table).insert (hashKey H (New seed) k).2 v2 := by
    rw [Update_kv]
    simp only [g2, if_true]
    rw [hashKey_digest_congr H sd2 k, kv2, Finmap.insert_insert]
  have sd3 : (Update H (Read H (Create H (New seed) k v1).1 k).1 k v2).1.hash.seed =
      (New seed).hash.seed := by rw [Update_seed, sd2]
  have r4 : (Read H (Update H (Read H (Create H (New seed) k v1).1 k).1 k v2).1 k).2 =
      (v2, none) := by
    apply Read_of_lookup H sd3
    rw [kv3, Finmap.lookup_insert]
  have kv4 : (Read H (Update H (Read H (Create H (New seed) k v1).1 k).1 k v2).1 k).1.kv =
      (∅ : Table).insert (hashKey H (New seed) k).2 v2 := by rw [Read_kv, kv3]
  have sd4 : (Read H (Update H (Read H (Create H (New seed) k v1).1 k).1 k v2).1 k).1.hash.seed =
      (New seed).hash.seed := by rw [Read_seed, sd3]
  have g4 : Registered H
      (Read H (Update H (Read H (Create H (New seed) k v1).1 k).1 k v2).1 k).1 k := by
    rw [Registered_of_seed H sd4 k, kv4, Finmap.lookup_insert]
    rfl
  have d5 : (Delete H
      (Read H (Update H (Read H (Create H (New seed) k v1).1 k).1 k v2).1 k).1 k).2 = none := by
    rw [Delete_err]; simp [g4]
  have kv5 : (Delete H
      (Read H (Update H (Read H (Create H (New seed) k v1).1 k).1 k v2).1 k).1 k).1.kv = ∅ := by
    rw [Delete_kv]
    simp only [g4, if_true]
    rw [hashKey_digest_congr H sd4 k, kv4]
    exact Table_erase_insert ∅ _ v2 (Finmap.lookup_empty _)
  have sd5 : (Delete H
      (Read H (Update H (Read H (Create H (New seed) k v1).1 k).1 k v2).1 k).1 k).1.hash.seed =
      (New seed).hash.seed := by rw [Delete_seed, sd4]
  have g5 : ¬ Registered H (Delete H
      (Read H (Update H (Read H (Create H (New seed) k v1).1 k).1 k v2).1 k).1 k).1 k := by
    rw [Registered_of_seed H sd5 k, kv5, Finmap.lookup_empty]
    simp
  have r6 := Read_of_not_Registered H g5
  constructor
  · show [(none, (Create H (New seed) k v1).2), (Read H (Create H (New seed) k v1).1 k).2,
      (none, (Update H (Read H (Create H (New seed) k v1).1 k).1 k v2).2),
      (Read H (Update H (Read H (Create H (New seed) k v1).1 k).1 k v2).1 k).2,
      (none, (Delete H
        (Read H (Update H (Read H (Create H (New seed) k v1).1 k).1 k v2).1 k).1 k).2),
      (Read H (Delete H
        (Read H (Update H (Read H (Create H (New seed) k v1).1 k).1 k v2).1 k).1 k).1 k).2] = _
    rw [c1, r1, u3, r4, d5, r6]
  · show (Read H (Delete H
      (Read H (Update H (Read H (Create H (New seed) k v1).1 k).1 k v2).1 k).1 k).1 k).1.kv = ∅
    rw [Read_kv, kv5]

/-- Witness of C12: the instance of the spec, key `"key"` with `"value1"` and `"value2"`. -/
theorem end_to_end_scenario_witness :
    len keyKey ≠ 0 ∧
    results polyHash (New 7) (scenario keyKey value1 value2) =
      [(none, none), (value1, none), (none, none), (value2, none), (none, none),
        (none, some NotFound)] ∧
    (run polyHash (New 7) (scenario keyKey value1 value2)).1.kv = ∅ :=
  ⟨by decide, end_to_end_scenario polyHash 7 keyKey value1 value2 (by decide)⟩

/-- C14 (colliding keys are one entry): for non-empty keys `k1`, `k2` with one digest, once
`Create(k1, v)` has succeeded on a new store, `Read(k2)` returns `v`, `Create(k2, v')` fails
with `AlreadyExists`, `Update(k2, v')` succeeds and makes `Read(k1)` return `v'`, and
`Delete(k2)` succeeds and makes `Read(k1)` fail with `NotFound`; the same holds when the
calls are made one after the other. -/
theorem colliding_keys_one_entry (H : Nat → List Byte → Nat) (seed : Nat)
    (k1 k2 v v' : ByteSlice) (h1 : len k1 ≠ 0) (h2 : len k2 ≠ 0)
    (hcol : (hashKey H (New seed) k1).2 = (hashKey H (New seed) k2).2) :
    (Create H (New seed) k1 v).2 = none ∧
    (Read H (Create H (New seed) k1 v).1 k2).2 = (v, none) ∧
    (Create H (Create H (New seed) k1 v).1 k2 v').2 = some AlreadyExists ∧
    (Update H (Create H (New seed) k1 v).1 k2 v').2 = none ∧
    (Read H (Update H (Create H (New seed) k1 v).1 k2 v').1 k1).2 = (v', none) ∧
    (Delete H (Create H (New seed) k1 v).1 k2).2 = none ∧
    (Read H (Delete H (Create H (New seed) k1 v).1 k2).1 k1).2 = (none, some NotFound) ∧
    results H (New seed)
      [Call.create k1 v, Call.read k2, Call.create k2 v', Call.update k2 v', Call.read k1,
        Call.delete k2, Call.read k1] =
      [(none, none), (v, none), (none, some AlreadyExists), (none, none), (v', none),
        (none, none), (none, some NotFound)] := by
  have c1 : (Create H (New seed) k1 v).2 = none :=
    (Create_ok_iff H (New seed) k1 v).2 ⟨h1, not_Registered_New H seed k1⟩
  have kv1 : (Create H (New seed) k1 v).1.kv =
      (∅ : Table).insert (hashKey H (New seed) k2).2 v := by
    rw [Create_ok_kv H c1, hcol]; rfl
  have sd1 : (Create H (New seed) k1 v).1.hash.seed = (New seed).hash.seed :=
    Create_seed _ _ _ _
  -- facts that hold in every store with this seed and the table holding the one digest
  have reg : ∀ (t : Store) (w : ByteSlice), t.hash.seed = (New seed).hash.seed →
      t.kv = (∅ : Table).insert (hashKey H (New seed) k2).2 w →
      Registered H t k2 ∧ (Read H t k2).2 = (w, none) ∧ (Read H t k1).2 = (w, none) := by
    intro t w hs hkv
    refine ⟨?_, ?_, ?_⟩
    · rw [Registered_of_seed H hs k2, hkv, Finmap.lookup_insert]; rfl
    · apply Read_of_lookup H hs
      rw [hkv, Finmap.lookup_insert]
    · apply Read_of_lookup H hs
      rw [hkv, hcol, Finmap.lookup_insert]
  have upd : ∀ (t : Store) (w : ByteSlice), t.hash.seed = (New seed).hash.seed →
      t.kv = (∅ : Table).insert (hashKey H (New seed) k2).2 w →
      (Update H t k2 v').2 = none ∧
      (Update H t k2 v').1.kv = (∅ : Table).insert (hashKey H (New seed) k2).2 v' := by
    intro t w hs hkv
    have g := (reg t w hs hkv).1
    constructor
    · rw [Update_err]; simp [g]
    · rw [Update_kv]
      simp only [g, if_true]
      rw [hashKey_digest_congr H hs k2, hkv, Finmap.insert_insert]
  have del : ∀ (t : Store) (w : ByteSlice), t.hash.seed = (New seed).hash.seed →
      t.kv = (∅ : Table).insert (hashKey H (New seed) k2).2 w →
      (Delete H t k2).2 = none ∧
      (Read H (Delete H t k2).1 k1).2 = (none, some NotFound) := by
    intro t w hs hkv
    have g := (reg t w hs hkv).1
    have hkv' : (Delete H t k2).1.kv = ∅ := by
      rw [Delete_kv]
      simp only [g, if_true]
      rw [hashKey_digest_congr H hs k2, hkv]
      exact Table_erase_insert ∅ _ w (Finmap.lookup_empty _)
    constructor
    · rw [Delete_err]; simp [g]
    · apply Read_of_not_Registered
      rw [Registered_of_seed H (show (Delete H t k2).1.hash.seed = (New seed).hash.seed by
        rw [Delete_seed, hs]) k1, hkv', Finmap.lookup_empty]
      simp
  have cr2 : ∀ (t : Store) (w : ByteSlice), t.hash.seed = (New seed).hash.seed →
      t.kv = (∅ : Table).insert (hashKey H (New seed) k2).2 w →
      (Create H t k2 v').2 = some AlreadyExists ∧ (Create H t k2 v').1.kv = t.kv := by
    intro t w hs hkv
    have g := (reg t w hs hkv).1
    have he : (Create H t k2 v').2 = some AlreadyExists := by
      rw [Create_err]; simp [h2, g]
    exact ⟨he, Create_fail_kv H (by rw [he]; simp)⟩
  -- the states of the sequence
  have sdR : (Read H (Create H (New seed) k1 v).1 k2).1.hash.seed = (New seed).hash.seed := by
    rw [Read_seed, sd1]
  have kvR : (Read H (Create H (New seed) k1 v).1 k2).1.kv =
      (∅ : Table).insert (hashKey H (New seed) k2).2 v := by rw [Read_kv, kv1]
  have sdC : (Create H (Read H (Create H (New seed) k1 v).1 k2).1 k2 v').1.hash.seed =
      (New seed).hash.seed := by rw [Create_seed, sdR]
  have kvC : (Create H (Read H (Create H (New seed) k1 v).1 k2).1 k2 v').1.kv =
      (∅ : Table).insert (hashKey H (New seed) k2).2 v := by
    rw [(cr2 _ v sdR kvR).2, kvR]
  have sdU : (Update H (Create H (Read H (Create H (New seed) k1 v).1 k2).1 k2 v').1
      k2 v').1.hash.seed = (New seed).hash.seed := by rw [Update_seed, sdC]
  have kvU := (upd _ v sdC kvC).2
  have sdR2 : (Read H (Update H (Create H (Read H (Create H (New seed) k1 v).1 k2).1 k2 v').1
      k2 v').1 k1).1.hash.seed = (New seed).hash.seed := by rw [Read_seed, sdU]
  have kvR2 : (Read H (Update H (Create H (Read H (Create H (New seed) k1 v).1 k2).1 k2 v').1
      k2 v').1 k1).1.kv = (∅ : Table).insert (hashKey H (New seed) k2).2 v' := by
    rw [Read_kv, kvU]
  refine ⟨c1, (reg _ v sd1 kv1).2.1, (cr2 _ v sd1 kv1).1, (upd _ v sd1 kv1).1, ?_,
    (del _ v sd1 kv1).1, (del _ v sd1 kv1).2, ?_⟩
  · exact (reg _ v' (by rw [Update_seed, sd1]) (upd _ v sd1 kv1).2).2.2
  · show [(none, (Create H (New seed) k1 v).2),
      (Read H (Create H (New seed) k1 v).1 k2).2,
      (none, (Create H (Read H (Create H (New seed) k1 v).1 k2).1 k2 v').2),
      (none, (Update H (Create H (Read H (Create H (New seed) k1 v).1 k2).1 k2 v').1 k2 v').2),
      (Read H (Update H (Create H (Read H (Create H (New seed) k1 v).1 k2).1 k2 v').1
        k2 v').1 k1).2,
      (none, (Delete H (Read H (Update H (Create H (Read H (Create H (New seed) k1 v).1 k2).1
        k2 v').1 k2 v').1 k1).1 k2).2),
      (Read H (Delete H (Read H (Update H (Create H (Read H (Create H (New seed) k1 v).1 k2).1
        k2 v').1 k2 v').1 k1).1 k2).1 k1).2] = _
    rw [c1, (reg _ v sd1 kv1).2.1, (cr2 _ v sdR kvR).1, (upd _ v sdC kvC).1,
      (reg _ v' sdU kvU).2.2, (del _ v' sdR2 kvR2).1, (del _ v' sdR2 kvR2).2]

/-- Witness of C14: `"ab"` and `"ba"` are different non-empty keys with one digest under
`sumHash`. -/
theorem colliding_keys_one_entry_witness :
    (bytesOf keyAB ≠ bytesOf keyBA ∧ len keyAB ≠ 0 ∧ len keyBA ≠ 0 ∧
      (hashKey sumHash (New 7) keyAB).2 = (hashKey sumHash (New 7) keyBA).2) ∧
    (Create sumHash (New 7) keyAB valV).2 = none ∧
    (Read sumHash (Create sumHash (New 7) keyAB valV).1 keyBA).2 = (valV, none) ∧
    (Create sumHash (Create sumHash (New 7) keyAB valV).1 keyBA valV1).2 = some AlreadyExists ∧
    (Read sumHash (Update sumHash (Create sumHash (New 7) keyAB valV).1 keyBA valV1).1 keyAB).2 =
      (valV1, none) ∧
    (Read sumHash (Delete sumHash (Create sumHash (New 7) keyAB valV).1 keyBA).1 keyAB).2 =
      (none, some NotFound) :=
  have h := colliding_keys_one_entry sumHash 7 keyAB keyBA valV valV1 (by decide) (by decide)
    (by decide)
  ⟨⟨by decide, by decide, by decide, by decide⟩, h.1, h.2.1, h.2.2.1, h.2.2.2.2.1,
    h.2.2.2.2.2.2.1⟩

/-! ## The hashing context -/

theorem hashAll_seed (H : Nat → List Byte → Nat) (ks : List ByteSlice) (s : Store) :
    (hashAll H s ks).hash.seed = s.hash.seed := by
  induction ks generalizing s with
  | nil => rfl
  | cons k ks ih =>
    show (hashAll H (hashKey H s k).1 ks).hash.seed = s.hash.seed
    rw [ih, hashKey_seed]

/-- C15 (no state leakage in hashing): the digest `hashKey` returns for `k` is a function of
the seed and the bytes of `k` alone; it is the same after any keys were hashed on the store
and after any history of calls, whatever the context held before; hence a key with the
same bytes has the same digest in all those stores and addresses the same table entry. -/
theorem hashKey_no_leak (H : Nat → List Byte → Nat) (s : Store) (k k' : ByteSlice)
    (ks : List ByteSlice) (calls : List Call) (hb : bytesOf k' = bytesOf k) :
    (hashKey H s k).2 = H s.hash.seed (bytesOf k) % 2 ^ 64 ∧
    (hashKey H (hashAll H s ks) k).2 = (hashKey H s k).2 ∧
    (hashKey H (run H s calls).1 k).2 = (hashKey H s k).2 ∧
    (hashKey H (hashAll H s ks) k').2 = (hashKey H s k).2 ∧
    (hashKey H (run H s calls).1 k').2 = (hashKey H s k).2 ∧
    (run H s calls).1.kv.lookup (hashKey H (run H s calls).1 k').2 =
      (run H s calls).1.kv.lookup (hashKey H (hashAll H s ks) k).2 := by
  have e1 : (hashKey H (hashAll H s ks) k).2 = (hashKey H s k).2 :=
    hashKey_digest_congr H (hashAll_seed H ks s) k
  have e2 : (hashKey H (run H s calls).1 k).2 = (hashKey H s k).2 :=
    hashKey_digest_congr H (run_seed H calls s) k
  have e3 : ∀ t : Store, (hashKey H t k').2 = (hashKey H t k).2 := by
    intro t
    rw [hashKey_digest, hashKey_digest, hb]
  refine ⟨hashKey_digest H s k, e1, e2, ?_, ?_, ?_⟩
  · rw [e3, e1]
  · rw [e3, e2]
  · rw [e3, e2, e1]

/-- Witness of C15: the nil key and the empty key have the same bytes; the store holding
`"k"` has hashed `"k"` before, and more keys are hashed on top. -/
theorem hashKey_no_leak_witness :
    bytesOf (some []) = bytesOf none ∧
    storeK.hash.written = [107] ∧
    (hashKey polyHash (hashAll polyHash storeK [keyK1, keyKey]) keyK1).2 =
      (hashKey polyHash storeK keyK1).2 ∧
    (hashKey polyHash (run polyHash storeK sampleCalls).1 (some [])).2 =
      (hashKey polyHash storeK none).2 :=
  have h := hashKey_no_leak polyHash storeK keyK1 keyK1 [keyK1, keyKey] sampleCalls rfl
  have h' := hashKey_no_leak polyHash storeK none (some []) [keyK1, keyKey] sampleCalls rfl
  ⟨rfl, by decide, h.2.1, h'.2.2.2.2.1⟩

/-! ## Frame and inverse properties -/

/-- C16 (independence of other keys): in every store, for keys `k`, `k'` with different digests,
`Create(k, v)`, `Update(k, v)` and `Delete(k)`, successful or not, leave the entry of `k'` as
it was: `Read(k')` returns the same value or the same `NotFound` error after the call as
before it. -/
theorem other_keys_untouched (H : Nat → List Byte → Nat) (s : Store) (k k' v : ByteSlice)
    (hne : (hashKey H s k).2 ≠ (hashKey H s k').2) :
    (Read H (Create H s k v).1 k').2 = (Read H s k').2 ∧
    (Read H (Update H s k v).1 k').2 = (Read H s k').2 ∧
    (Read H (Delete H s k).1 k').2 = (Read H s k').2 := by
  refine ⟨?_, ?_, ?_⟩
  · rw [Read_res_of_seed H (Create_seed H s k v) k', Read_res, Create_kv]
    by_cases hk : len k = 0
    · simp only [hk, if_true]
    · by_cases hr : Registered H s k
      · simp only [hk, hr, if_true, if_false]
      · simp only [hk, hr, if_false]
        rw [Finmap.lookup_insert_of_ne _ hne.symm]
  · rw [Read_res_of_seed H (Update_seed H s k v) k', Read_res, Update_kv]
    by_cases hr : Registered H s k
    · simp only [hr, if_true]
      rw [Finmap.lookup_insert_of_ne _ hne.symm]
    · simp only [hr, if_false]
  · rw [Read_res_of_seed H (Delete_seed H s k) k', Read_res, Delete_kv]
    by_cases hr : Registered H s k
    · simp only [hr, if_true]
      rw [Finmap.lookup_erase_ne hne.symm]
    · simp only [hr, if_false]

/-- Witness of C16: in the store holding `"k"`, calls on `"k1"` leave `"k"` readable with its
value, and calls on `"k"` leave `"k1"` missing. -/
theorem other_keys_untouched_witness :
    (hashKey polyHash storeK keyK1).2 ≠ (hashKey polyHash storeK keyK).2 ∧
    (Read polyHash storeK keyK).2 = (valV, none) ∧
    (Read polyHash (Create polyHash storeK keyK1 valV1).1 keyK).2 = (valV, none) ∧
    (Read polyHash (Update polyHash storeK keyK1 valV1).1 keyK).2 = (valV, none) ∧
    (Read polyHash (Delete polyHash storeK keyK1).1 keyK).2 = (valV, none) ∧
    (Read polyHash (Delete polyHash storeK keyK).1 keyK1).2 = (Read polyHash storeK keyK1).2 :=
  have hr : (Read polyHash storeK keyK).2 = (valV, none) := by decide
  have h := other_keys_untouched polyHash storeK keyK1 keyK valV1 (by decide)
  have h' := other_keys_untouched polyHash storeK keyK keyK1 valV1 (by decide)
  ⟨by decide, hr, h.1.trans hr, h.2.1.trans hr, h.2.2.trans hr, h'.2.2⟩

/-- C17 (Delete undoes Create): in every store, for a non-empty key `k` that is not registered,
`Create(k, v)` followed by `Delete(k)` both succeed and leave the table that was there before
the `Create`; `k` can then be created again with any value. -/
theorem delete_undoes_create (H : Nat → List Byte → Nat) (s : Store) (k v v' : ByteSlice)
    (hk : len k ≠ 0) (hr : ¬ Registered H s k) :
    (Create H s k v).2 = none ∧
    (Delete H (Create H s k v).1 k).2 = none ∧
    (Delete H (Create H s k v).1 k).1.kv = s.kv ∧
    (Create H (Delete H (Create H s k v).1 k).1 k v').2 = none := by
  have c1 : (Create H s k v).2 = none := (Create_ok_iff H s k v).2 ⟨hk, hr⟩
  have g1 : Registered H (Create H s k v).1 k := Registered_after_Create H c1
  have hnone : s.kv.lookup (hashKey H s k).2 = none := by
    unfold Registered at hr
    cases hl : Finmap.lookup (hashKey H s k).2 s.kv with
    | none => rfl
    | some w => rw [hl] at hr; exact absurd rfl hr
  have kv2 : (Delete H (Create H s k v).1 k).1.kv = s.kv := by
    rw [Delete_kv]
    simp only [g1, if_true]
    rw [hashKey_digest_congr H (Create_seed H s k v) k, Create_ok_kv H c1]
    exact Table_erase_insert s.kv _ v hnone
  have sd2 : (Delete H (Create H s k v).1 k).1.hash.seed = s.hash.seed := by
    rw [Delete_seed, Create_seed]
  have g2 : ¬ Registered H (Delete H (Create H s k v).1 k).1 k := by
    rw [Registered_congr H kv2 sd2 k]
    exact hr
  refine ⟨c1, ?_, kv2, (Create_ok_iff H _ k v').2 ⟨hk, g2⟩⟩
  rw [Delete_err]; simp [g1]

/-- Witness of C17: `"k1"` created in and deleted from the store holding `"k"`. -/
theorem delete_undoes_create_witness :
    (len keyK1 ≠ 0 ∧ ¬ Registered polyHash storeK keyK1) ∧
    (Create polyHash storeK keyK1 valV).2 = none ∧
    (Delete polyHash (Create polyHash storeK keyK1 valV).1 keyK1).2 = none ∧
    (Delete polyHash (Create polyHash storeK keyK1 valV).1 keyK1).1.kv = storeK.kv ∧
    (Create polyHash (Delete polyHash (Create polyHash storeK keyK1 valV).1 keyK1).1
      keyK1 valV1).2 = none :=
  ⟨⟨by decide, by decide⟩,
    delete_undoes_create polyHash storeK keyK1 valV valV1 (by decide) (by decide)⟩

/-! ## The set of registered digests -/

/-- C18 (effect on the set of registered digests): in every store, a successful `Create` adds
exactly the digest of its key, which was absent, so the number of entries grows by one; a
successful `Delete` removes exactly the digest of its key, which was present, so the number
shrinks by one; a successful `Update` keeps the set of digests and changes the value under
the digest of its key only; and `Update(k, v1)` followed by `Update(k, v2)` leaves the table
that `Update(k, v2)` alone leaves. -/
theorem digests_effect (H : Nat → List Byte → Nat) (s : Store) (k v v1 v2 : ByteSlice) :
    ((Create H s k v).2 = none →
      (hashKey H s k).2 ∉ s.kv.keys ∧
      (Create H s k v).1.kv.keys = insert (hashKey H s k).2 s.kv.keys ∧
      (Create H s k v).1.kv.keys.card = s.kv.keys.card + 1) ∧
    ((Delete H s k).2 = none →
      (hashKey H s k).2 ∈ s.kv.keys ∧
      (Delete H s k).1.kv.keys = s.kv.keys.erase (hashKey H s k).2 ∧
      (Delete H s k).1.kv.keys.card + 1 = s.kv.keys.card) ∧
    ((Update H s k v).2 = none →
      (Update H s k v).1.kv.keys = s.kv.keys ∧
      (Update H s k v).1.kv.lookup (hashKey H s k).2 = some v ∧
      ∀ d : Nat, d ≠ (hashKey H s k).2 →
        (Update H s k v).1.kv.lookup d = s.kv.lookup d) ∧
    (Update H (Update H s k v1).1 k v2).1.kv = (Update H s k v2).1.kv := by
  refine ⟨?_, ?_, ?_, ?_⟩
  · intro hc
    have hr : ¬ Registered H s k := ((Create_ok_iff H s k v).1 hc).2
    have habs : (hashKey H s k).2 ∉ s.kv.keys := by
      rw [Table_mem_keys_iff]
      exact hr
    have hkeys : (Create H s k v).1.kv.keys = insert (hashKey H s k).2 s.kv.keys := by
      rw [Create_ok_kv H hc, Table_keys_insert]
    exact ⟨habs, hkeys, by rw [hkeys, Finset.card_insert_of_not_mem habs]⟩
  · intro hd
    have hr : Registered H s k := by
      by_contra hn
      rw [Delete_err] at hd
      simp [hn] at hd
    have hpres : (hashKey H s k).2 ∈ s.kv.keys := by
      rw [Table_mem_keys_iff]
      exact hr
    have hkeys : (Delete H s k).1.kv.keys = s.kv.keys.erase (hashKey H s k).2 := by
      rw [Delete_kv]
      simp only [hr, if_true]
      exact Finmap.keys_erase _ _
    exact ⟨hpres, hkeys, by rw [hkeys, Finset.card_erase_add_one hpres]⟩
  · intro hu
    have hr : Registered H s k := by
      by_contra hn
      rw [Update_err] at hu
      simp [hn] at hu
    have hpres : (hashKey H s k).2 ∈ s.kv.keys := by
      rw [Table_mem_keys_iff]
      exact hr
    have hkv : (Update H s k v).1.kv = s.kv.insert (hashKey H s k).2 v := by
      rw [Update_kv]
      simp only [hr, if_true]
    refine ⟨?_, ?_, ?_⟩
    · rw [hkv, Table_keys_insert, Finset.insert_eq_of_mem hpres]
    · rw [hkv, Finmap.lookup_insert]
    · intro d hd
      rw [hkv, Finmap.lookup_insert_of_ne _ hd]
  · have hd : (hashKey H (Update H s k v1).1 k).2 = (hashKey H s k).2 :=
      hashKey_digest_congr H (Update_seed H s k v1) k
    by_cases hr : Registered H s k
    · have hkv1 : (Update H s k v1).1.kv = s.kv.insert (hashKey H s k).2 v1 := by
        rw [Update_kv]
        simp only [hr, if_true]
      have hr1 : Registered H (Update H s k v1).1 k := by
        rw [Registered_of_seed H (Update_seed H s k v1) k, hkv1, Finmap.lookup_insert]
        rfl
      have hL : (Update H (Update H s k v1).1 k v2).1.kv =
          (Update H s k v1).1.kv.insert (hashKey H (Update H s k v1).1 k).2 v2 := by
        rw [Update_kv]
        simp only [hr1, if_true]
      have hR : (Update H s k v2).1.kv = s.kv.insert (hashKey H s k).2 v2 := by
        rw [Update_kv]
        simp only [hr, if_true]
      rw [hL, hR, hd, hkv1, Finmap.insert_insert]
    · have hkv1 : (Update H s k v1).1.kv = s.kv := by
        rw [Update_kv]
        simp only [hr, if_false]
      have hr1 : ¬ Registered H (Update H s k v1).1 k := by
        rw [Registered_congr H hkv1 (Update_seed H s k v1) k]
        exact hr
      have hL : (Update H (Update H s k v1).1 k v2).1.kv = (Update H s k v1).1.kv := by
        rw [Update_kv]
        simp only [hr1, if_false]
      have hR : (Update H s k v2).1.kv = s.kv := by
        rw [Update_kv]
        simp only [hr, if_false]
      rw [hL, hR, hkv1]

/-- Witness of C18: `"k1"` created in, and `"k"` deleted from and updated in, the store that
holds `"k"` alone. -/
theorem digests_effect_witness :
    storeK.kv.keys.card = 1 ∧
    ((Create polyHash storeK keyK1 valV).2 = none ∧
      (Create polyHash storeK keyK1 valV).1.kv.keys.card = storeK.kv.keys.card + 1) ∧
    ((Delete polyHash storeK keyK).2 = none ∧
      (Delete polyHash storeK keyK).1.kv.keys.card + 1 = storeK.kv.keys.card) ∧
    ((Update polyHash storeK keyK valV1).2 = none ∧
      (Update polyHash storeK keyK valV1).1.kv.keys = storeK.kv.keys ∧
      (Update polyHash storeK keyK valV1).1.kv.lookup (hashKey polyHash storeK keyK).2 =
        some valV1) ∧
    (Update polyHash (Update polyHash storeK keyK valV).1 keyK valV1).1.kv =
      (Update polyHash storeK keyK valV1).1.kv :=
  have hc := digests_effect polyHash storeK keyK1 valV valV valV1
  have hk := digests_effect polyHash storeK keyK valV1 valV valV1
  ⟨by decide, ⟨by decide, (hc.1 (by decide)).2.2⟩, ⟨by decide, (hk.2.1 (by decide)).2.2⟩,
    ⟨by decide, (hk.2.2.1 (by decide)).1, (hk.2.2.1 (by decide)).2.1⟩, hk.2.2.2⟩

end memstore
